import Mathlib

/-!
Verification of the AI call transcript analyzer (`app.py`)

A shallow embedding of the transcript-analysis pipeline of `app.py`:
Python strings are modelled as `List Char`, the external inference client
as an oracle record, and the single-slot CSV store as an inductive file
state.  Each route handler becomes a pure Lean function from its request
data and the current file state to its response and the next file state.
-/

namespace TranscriptApp

/-- The double-quote character (Python `'"'`). -/
def quoteChar : Char := Char.ofNat 34

/-- The apostrophe character (Python `"'"`). -/
def aposChar : Char := Char.ofNat 39

/-- Characters removed by Python `str.strip()` (ASCII whitespace). -/
def isPySpace (c : Char) : Bool :=
  c = ' ' || c = '\t' || c = '\n' || c = '\r' || c = '\x0b' || c = '\x0c'

/-- Python `s.strip()`: drop whitespace from both ends. -/
def pyStrip (l : List Char) : List Char :=
  List.rdropWhile isPySpace (List.dropWhile isPySpace l)

/-- Python `s.startswith(pre)`. -/
def beginsWith : List Char → List Char → Bool
  | [], _ => true
  | _ :: _, [] => false
  | c :: pre, d :: l => c = d && beginsWith pre l

/-- Python `needle in hay` for strings (substring test). -/
def containsSub (needle : List Char) : List Char → Bool
  | [] => beginsWith needle []
  | c :: rest => beginsWith needle (c :: rest) || containsSub needle rest

/-- Python `s.endswith(suf)`. -/
def endsWithText (suf l : List Char) : Bool :=
  beginsWith suf.reverse l.reverse

/-!
Sentiment normalization (app.py lines 92-106)

The cleanup applied to the raw sentiment completion, step by step:

* line 92: `sentiment.replace('"', '').replace("'", "").strip()`
* lines 95-96: `if '\n' in s: s = s.split('\n')[0].strip()`
  (`split('\n')[0]` is the prefix before the first newline)
* lines 100-101: `if ':' in s: s = s.split(':')[-1].strip()`
  (`split(':')[-1]` is the suffix after the last colon)
* lines 104-106: `parts = s.split('.'); if len(parts) > 1: s = parts[0].strip()`
  (`len(parts) > 1` holds exactly when a period occurs; `parts[0]` is the
  prefix before the first period)
-/

/-- Line 92: remove every double quote and apostrophe. -/
def dropQuotes (l : List Char) : List Char :=
  (l.filter (fun c => c ≠ quoteChar)).filter (fun c => c ≠ aposChar)

/-- Lines 95-96: if a newline occurs, keep only the first line, stripped. -/
def firstLineStep (l : List Char) : List Char :=
  if ('\n') ∈ l then pyStrip (l.takeWhile (fun c => c ≠ '\n')) else l

/-- Lines 100-101: if a colon occurs, keep only the text after the last colon,
stripped. -/
def lastColonStep (l : List Char) : List Char :=
  if (':') ∈ l then pyStrip (List.rtakeWhile (fun c => c ≠ ':') l) else l

/-- Lines 104-106: if a period occurs, keep only the text before the first
period, stripped. -/
def firstPeriodStep (l : List Char) : List Char :=
  if ('.') ∈ l then pyStrip (l.takeWhile (fun c => c ≠ '.')) else l

/-- Lines 92-106: the full sentiment-cleanup pipeline. -/
def normalizeSentiment (l : List Char) : List Char :=
  firstPeriodStep (lastColonStep (firstLineStep (pyStrip (dropQuotes l))))

/-!
General list lemmas

Small facts about `takeWhile` / `dropWhile` and their right-to-left
variants, used to reason about the Python string operations above.
-/

theorem takeWhile_append_all {α : Type} {p : α → Bool} {w : List α}
    (h : ∀ c ∈ w, p c = true) (x : List α) :
    List.takeWhile p (w ++ x) = w ++ List.takeWhile p x := by
  have hw : List.takeWhile p w = w := List.takeWhile_eq_self_iff.mpr h
  rw [List.takeWhile_append, hw, if_pos rfl]

theorem takeWhile_append_stop {α : Type} {p : α → Bool} {x : List α} {c : α}
    (hc : c ∈ x) (hpc : p c = false) (y : List α) :
    List.takeWhile p (x ++ y) = List.takeWhile p x := by
  rw [List.takeWhile_append, if_neg]
  intro hlen
  have hx : List.takeWhile p x = x :=
    (List.takeWhile_prefix p).eq_of_length hlen
  have := List.takeWhile_eq_self_iff.mp hx c hc
  rw [hpc] at this
  exact Bool.false_ne_true this

theorem dropWhile_append_all {α : Type} {p : α → Bool} {w : List α}
    (h : ∀ c ∈ w, p c = true) (x : List α) :
    List.dropWhile p (w ++ x) = List.dropWhile p x := by
  have hw : List.dropWhile p w = [] := List.dropWhile_eq_nil_iff.mpr h
  rw [List.dropWhile_append, hw]
  rfl

theorem rtakeWhile_append_all {α : Type} {p : α → Bool} {w : List α}
    (h : ∀ c ∈ w, p c = true) (x : List α) :
    List.rtakeWhile p (x ++ w) = List.rtakeWhile p x ++ w := by
  simp only [List.rtakeWhile, List.reverse_append]
  rw [takeWhile_append_all (fun c hc => h c (List.mem_reverse.mp hc)),
    List.reverse_append, List.reverse_reverse]

theorem rtakeWhile_append_stop {α : Type} {p : α → Bool} {y : List α} {c : α}
    (hc : c ∈ y) (hpc : p c = false) (x : List α) :
    List.rtakeWhile p (x ++ y) = List.rtakeWhile p y := by
  simp only [List.rtakeWhile, List.reverse_append]
  rw [takeWhile_append_stop (List.mem_reverse.mpr hc) hpc]

theorem rdropWhile_append_all {α : Type} {p : α → Bool} {w : List α}
    (h : ∀ c ∈ w, p c = true) (x : List α) :
    List.rdropWhile p (x ++ w) = List.rdropWhile p x := by
  simp only [List.rdropWhile, List.reverse_append]
  rw [dropWhile_append_all (fun c hc => h c (List.mem_reverse.mp hc))]

theorem rdropWhile_append_rtakeWhile {α : Type} (p : α → Bool) (l : List α) :
    List.rdropWhile p l ++ List.rtakeWhile p l = l := by
  simp only [List.rdropWhile, List.rtakeWhile]
  rw [← List.reverse_append, List.takeWhile_append_dropWhile, List.reverse_reverse]

/-!
Facts about `pyStrip`
-/

theorem pyStrip_sublist (l : List Char) : List.Sublist (pyStrip l) l :=
  ((List.rdropWhile_prefix _ _).sublist).trans (List.dropWhile_suffix _).sublist

theorem mem_of_mem_pyStrip {a : Char} {l : List Char} (h : a ∈ pyStrip l) : a ∈ l :=
  (pyStrip_sublist l).subset h

theorem head?_dropWhile_false {α : Type} {p : α → Bool} {l : List α} {a : α}
    (h : (List.dropWhile p l).head? = some a) : p a = false := by
  induction l with
  | nil => simp [List.dropWhile] at h
  | cons b t ih =>
    rw [List.dropWhile_cons] at h
    split at h
    · exact ih h
    · rename_i hb
      simp only [List.head?_cons, Option.some.injEq] at h
      rw [← h]
      exact Bool.not_eq_true _ ▸ (by simpa using hb)

theorem dropWhile_pyStrip (l : List Char) :
    List.dropWhile isPySpace (pyStrip l) = pyStrip l := by
  cases hs : pyStrip l with
  | nil => rfl
  | cons a t =>
    have hpre : List.IsPrefix (pyStrip l) (List.dropWhile isPySpace l) :=
      List.rdropWhile_prefix _ _
    rw [hs] at hpre
    obtain ⟨u, hu⟩ := hpre
    have h1 : (List.dropWhile isPySpace l).head? = some a := by
      rw [← hu]
      rfl
    have h2 : isPySpace a = false := head?_dropWhile_false h1
    rw [List.dropWhile_cons]
    simp [h2]

theorem pyStrip_idem (l : List Char) : pyStrip (pyStrip l) = pyStrip l := by
  have h := dropWhile_pyStrip l
  unfold pyStrip at h ⊢
  rw [h]
  exact List.rdropWhile_idempotent _ _

theorem pyStrip_decomp (l : List Char) :
    ∃ w1 w2 : List Char, (∀ c ∈ w1, isPySpace c = true) ∧
      (∀ c ∈ w2, isPySpace c = true) ∧ l = w1 ++ (pyStrip l ++ w2) := by
  refine ⟨List.takeWhile isPySpace l,
    List.rtakeWhile isPySpace (List.dropWhile isPySpace l),
    fun c hc => List.mem_takeWhile_imp hc,
    fun c hc => List.mem_rtakeWhile_imp hc, ?_⟩
  conv_lhs => rw [← List.takeWhile_append_dropWhile (p := isPySpace) (l := l)]
  congr 1
  unfold pyStrip
  exact (rdropWhile_append_rtakeWhile isPySpace (List.dropWhile isPySpace l)).symm

theorem mem_pyStrip_of_not_space {c : Char} {l : List Char}
    (hns : isPySpace c = false) (hc : c ∈ l) : c ∈ pyStrip l := by
  obtain ⟨w1, w2, h1, h2, hdec⟩ := pyStrip_decomp l
  rw [hdec] at hc
  rcases List.mem_append.mp hc with h | h
  · rw [h1 c h] at hns
    exact absurd hns (by simp)
  · rcases List.mem_append.mp h with h | h
    · exact h
    · rw [h2 c h] at hns
      exact absurd hns (by simp)

theorem pyStrip_append_ws {w : List Char} (h : ∀ c ∈ w, isPySpace c = true)
    (x : List Char) : pyStrip (x ++ w) = pyStrip x := by
  unfold pyStrip
  rw [List.dropWhile_append]
  split
  · rename_i hemp
    have h1 : List.dropWhile isPySpace w = [] := List.dropWhile_eq_nil_iff.mpr h
    have h2 : List.dropWhile isPySpace x = [] := by
      simpa using hemp
    rw [h1, h2]
  · exact rdropWhile_append_all h _

theorem pyStrip_ws_append {w : List Char} (h : ∀ c ∈ w, isPySpace c = true)
    (x : List Char) : pyStrip (w ++ x) = pyStrip x := by
  unfold pyStrip
  rw [dropWhile_append_all h]

/-!
Facts about the sentiment-normalization steps
-/

theorem mem_of_mem_dropQuotes {a : Char} {l : List Char} (h : a ∈ dropQuotes l) :
    a ∈ l :=
  (List.mem_filter.mp (List.mem_filter.mp h).1).1

theorem quote_not_mem_dropQuotes (l : List Char) : quoteChar ∉ dropQuotes l := by
  intro h
  have := (List.mem_filter.mp (List.mem_filter.mp h).1).2
  simp at this

theorem apos_not_mem_dropQuotes (l : List Char) : aposChar ∉ dropQuotes l := by
  intro h
  have := (List.mem_filter.mp h).2
  simp at this

theorem dropQuotes_eq_self {l : List Char} (h1 : quoteChar ∉ l) (h2 : aposChar ∉ l) :
    dropQuotes l = l := by
  unfold dropQuotes
  have hq : l.filter (fun c => decide (c ≠ quoteChar)) = l :=
    List.filter_eq_self.mpr (fun a ha => by
      simp only [decide_eq_true_eq]
      intro he
      exact h1 (he ▸ ha))
  rw [hq]
  exact List.filter_eq_self.mpr (fun a ha => by
    simp only [decide_eq_true_eq]
    intro he
    exact h2 (he ▸ ha))

theorem mem_of_mem_firstLineStep {a : Char} {l : List Char}
    (h : a ∈ firstLineStep l) : a ∈ l := by
  unfold firstLineStep at h
  split at h
  · exact (List.takeWhile_prefix _).sublist.subset (mem_of_mem_pyStrip h)
  · exact h

theorem mem_of_mem_lastColonStep {a : Char} {l : List Char}
    (h : a ∈ lastColonStep l) : a ∈ l := by
  unfold lastColonStep at h
  split at h
  · exact (List.rtakeWhile_suffix _ _).sublist.subset (mem_of_mem_pyStrip h)
  · exact h

theorem mem_of_mem_firstPeriodStep {a : Char} {l : List Char}
    (h : a ∈ firstPeriodStep l) : a ∈ l := by
  unfold firstPeriodStep at h
  split at h
  · exact (List.takeWhile_prefix _).sublist.subset (mem_of_mem_pyStrip h)
  · exact h

theorem pyStrip_firstLineStep {l : List Char} (h : pyStrip l = l) :
    pyStrip (firstLineStep l) = firstLineStep l := by
  unfold firstLineStep
  split
  · exact pyStrip_idem _
  · exact h

theorem pyStrip_lastColonStep {l : List Char} (h : pyStrip l = l) :
    pyStrip (lastColonStep l) = lastColonStep l := by
  unfold lastColonStep
  split
  · exact pyStrip_idem _
  · exact h

theorem pyStrip_firstPeriodStep {l : List Char} (h : pyStrip l = l) :
    pyStrip (firstPeriodStep l) = firstPeriodStep l := by
  unfold firstPeriodStep
  split
  · exact pyStrip_idem _
  · exact h

theorem newline_not_mem_firstLineStep (l : List Char) : ('\n') ∉ firstLineStep l := by
  unfold firstLineStep
  split
  · intro hmem
    have := List.mem_takeWhile_imp (mem_of_mem_pyStrip hmem)
    simp at this
  · rename_i h
    exact h

theorem colon_not_mem_lastColonStep (l : List Char) : (':') ∉ lastColonStep l := by
  unfold lastColonStep
  split
  · intro hmem
    have := List.mem_rtakeWhile_imp (mem_of_mem_pyStrip hmem)
    simp at this
  · rename_i h
    exact h

theorem period_not_mem_firstPeriodStep (l : List Char) : ('.') ∉ firstPeriodStep l := by
  unfold firstPeriodStep
  split
  · intro hmem
    have := List.mem_takeWhile_imp (mem_of_mem_pyStrip hmem)
    simp at this
  · rename_i h
    exact h

theorem firstLineStep_eq_self {l : List Char} (h : ('\n') ∉ l) :
    firstLineStep l = l := by
  unfold firstLineStep
  rw [if_neg h]

theorem lastColonStep_eq_self {l : List Char} (h : (':') ∉ l) :
    lastColonStep l = l := by
  unfold lastColonStep
  rw [if_neg h]

theorem firstPeriodStep_eq_self {l : List Char} (h : ('.') ∉ l) :
    firstPeriodStep l = l := by
  unfold firstPeriodStep
  rw [if_neg h]

theorem pyStrip_normalizeSentiment (l : List Char) :
    pyStrip (normalizeSentiment l) = normalizeSentiment l :=
  pyStrip_firstPeriodStep (pyStrip_lastColonStep (pyStrip_firstLineStep
    (pyStrip_idem (dropQuotes l))))

theorem quote_not_mem_normalizeSentiment (l : List Char) :
    quoteChar ∉ normalizeSentiment l := by
  intro h
  exact quote_not_mem_dropQuotes l (mem_of_mem_pyStrip (mem_of_mem_firstLineStep
    (mem_of_mem_lastColonStep (mem_of_mem_firstPeriodStep h))))

theorem apos_not_mem_normalizeSentiment (l : List Char) :
    aposChar ∉ normalizeSentiment l := by
  intro h
  exact apos_not_mem_dropQuotes l (mem_of_mem_pyStrip (mem_of_mem_firstLineStep
    (mem_of_mem_lastColonStep (mem_of_mem_firstPeriodStep h))))

theorem newline_not_mem_normalizeSentiment (l : List Char) :
    ('\n') ∉ normalizeSentiment l := by
  intro h
  exact newline_not_mem_firstLineStep _ (mem_of_mem_lastColonStep
    (mem_of_mem_firstPeriodStep h))

theorem colon_not_mem_normalizeSentiment (l : List Char) :
    (':') ∉ normalizeSentiment l := by
  intro h
  exact colon_not_mem_lastColonStep _ (mem_of_mem_firstPeriodStep h)

theorem period_not_mem_normalizeSentiment (l : List Char) :
    ('.') ∉ normalizeSentiment l :=
  period_not_mem_firstPeriodStep _

/-- The sentiment normalization exactly as the claim words it, with no
intermediate stripping: (1) strip quote characters and whitespace; (2) keep
only the first line; (3) keep only the text after the last colon; (4) split
on periods and keep the first segment; (5) trim whitespace.  The claim
states steps (2) and (3) conditionally; taking the first line (resp. the
text after the last colon) is the identity when no newline (resp. colon)
occurs, so they are written unconditionally here. -/
def normalizeSentimentSpec (l : List Char) : List Char :=
  pyStrip ((List.rtakeWhile (fun c => c ≠ ':')
    ((pyStrip (dropQuotes l)).takeWhile (fun c => c ≠ '\n'))).takeWhile
      (fun c => c ≠ '.'))

theorem firstLineStep_eq_strip_takeWhile {s : List Char} (hs : pyStrip s = s) :
    firstLineStep s = pyStrip (s.takeWhile (fun c => c ≠ '\n')) := by
  unfold firstLineStep
  split
  · rfl
  · rename_i h
    have ht : s.takeWhile (fun c => decide (c ≠ '\n')) = s :=
      List.takeWhile_eq_self_iff.mpr (fun x hx => by
        simp only [decide_eq_true_eq]
        intro he
        exact h (he ▸ hx))
    rw [ht, hs]

theorem lastColonStep_pyStrip (u : List Char) :
    lastColonStep (pyStrip u) = pyStrip (List.rtakeWhile (fun c => c ≠ ':') u) := by
  by_cases hc : (':') ∈ u
  · have hc' : (':') ∈ pyStrip u := mem_pyStrip_of_not_space (by decide) hc
    unfold lastColonStep
    rw [if_pos hc']
    obtain ⟨w1, w2, h1, h2, hdec⟩ := pyStrip_decomp u
    conv_rhs => rw [hdec]
    rw [rtakeWhile_append_stop (c := ':')
        (List.mem_append.mpr (Or.inl hc')) (by simp) w1,
      rtakeWhile_append_all (fun c hcw => by
        simp only [decide_eq_true_eq]
        intro he
        exact absurd (he ▸ h2 c hcw) (by decide)) (pyStrip u),
      pyStrip_append_ws h2]
  · have hc' : (':') ∉ pyStrip u := fun h => hc (mem_of_mem_pyStrip h)
    unfold lastColonStep
    rw [if_neg hc']
    have ht : List.rtakeWhile (fun c => decide (c ≠ ':')) u = u :=
      List.rtakeWhile_eq_self_iff.mpr (fun x hx => by
        simp only [decide_eq_true_eq]
        intro he
        exact hc (he ▸ hx))
    rw [ht]

theorem firstPeriodStep_pyStrip (u : List Char) :
    firstPeriodStep (pyStrip u) = pyStrip (u.takeWhile (fun c => c ≠ '.')) := by
  by_cases hp : ('.') ∈ u
  · have hp' : ('.') ∈ pyStrip u := mem_pyStrip_of_not_space (by decide) hp
    unfold firstPeriodStep
    rw [if_pos hp']
    obtain ⟨w1, w2, h1, h2, hdec⟩ := pyStrip_decomp u
    conv_rhs => rw [hdec]
    rw [takeWhile_append_all (fun c hcw => by
        simp only [decide_eq_true_eq]
        intro he
        exact absurd (he ▸ h1 c hcw) (by decide)) (pyStrip u ++ w2),
      takeWhile_append_stop (c := '.') hp' (by simp) w2,
      pyStrip_ws_append h1]
  · have hp' : ('.') ∉ pyStrip u := fun h => hp (mem_of_mem_pyStrip h)
    unfold firstPeriodStep
    rw [if_neg hp']
    have ht : u.takeWhile (fun c => decide (c ≠ '.')) = u :=
      List.takeWhile_eq_self_iff.mpr (fun x hx => by
        simp only [decide_eq_true_eq]
        intro he
        exact hp (he ▸ hx))
    rw [ht]

/-!
Python JSON values

The possible results of `json.loads` on an uploaded document or request
body (JSON floats are not modelled; no claim involves them).
-/

/-- A Python value as produced by `json.loads`. -/
inductive PyVal : Type
  | vstr (s : List Char)
  | vint (n : Int)
  | vbool (b : Bool)
  | vnone
  | vlist (elems : List PyVal)
  | vdict (fields : List (List Char × PyVal))

/-- Python truthiness, `bool(v)`. -/
def pyTruthy : PyVal → Bool
  | .vstr s => !s.isEmpty
  | .vint n => n ≠ 0
  | .vbool b => b
  | .vnone => false
  | .vlist l => !l.isEmpty
  | .vdict d => !d.isEmpty

mutual

/-- Python `repr(v)` for the values above.  (Escaping inside the `repr` of
a `str` is not modelled; no claim depends on it.) -/
def pyRepr : PyVal → List Char
  | .vstr s => aposChar :: (s ++ [aposChar])
  | .vint n => (toString n).toList
  | .vbool b => if b then "True".toList else "False".toList
  | .vnone => "None".toList
  | .vlist l => Char.ofNat 91 :: (pyReprItems l ++ [Char.ofNat 93])
  | .vdict d => Char.ofNat 123 :: (pyReprFields d ++ [Char.ofNat 125])

/-- The comma-separated element list in the `repr` of a Python list. -/
def pyReprItems : List PyVal → List Char
  | [] => []
  | [v] => pyRepr v
  | v :: rest => pyRepr v ++ (", ".toList ++ pyReprItems rest)

/-- The comma-separated `key: value` list in the `repr` of a Python dict. -/
def pyReprFields : List (List Char × PyVal) → List Char
  | [] => []
  | [(k, v)] => pyRepr (.vstr k) ++ (": ".toList ++ pyRepr v)
  | (k, v) :: rest =>
    pyRepr (.vstr k) ++ (": ".toList ++ (pyRepr v ++ (", ".toList ++ pyReprFields rest)))

end

/-- Python `str(v)`: the string itself for a `str`, `repr`-style text for
dicts, lists, ints, bools and `None`. -/
def pyStr : PyVal → List Char
  | .vstr s => s
  | .vint n => pyRepr (.vint n)
  | .vbool b => pyRepr (.vbool b)
  | .vnone => pyRepr .vnone
  | .vlist l => pyRepr (.vlist l)
  | .vdict d => pyRepr (.vdict d)

def transcriptKey : List Char := "transcript".toList

def conversationKey : List Char := "conversation".toList

def dialogueKey : List Char := "dialogue".toList

def textKey : List Char := "text".toList

/-- Lines 146-166 of app.py.  The argument is the result of `json.loads`
on the uploaded content: `none` models a `json.JSONDecodeError` (the
function returns `None`), `some v` a successfully parsed document.
A dict is probed for the four keys in priority order (`'k' in data`
followed by `data['k']` is an association-list lookup) and the found value
is returned unchanged; with no match the dict is stringified.  A list is
joined with single spaces after stringifying each element; anything else
is stringified. -/
def parse_json_transcript : Option PyVal → Option PyVal
  | none => none
  | some (.vdict d) =>
    match d.lookup transcriptKey with
    | some v => some v
    | none =>
      match d.lookup conversationKey with
      | some v => some v
      | none =>
        match d.lookup dialogueKey with
        | some v => some v
        | none =>
          match d.lookup textKey with
          | some v => some v
          | none => some (.vstr (pyStr (.vdict d)))
  | some (.vlist l) => some (.vstr (List.intercalate (" ".toList) (l.map pyStr)))
  | some v => some (.vstr (pyStr v))

/-- Transcript extraction as the (amended) claim words it: check the four
keys in priority order and return the first match's value unchanged;
stringify the whole mapping when none is present; join stringified
sequence elements with single spaces; `None` on a parse failure. -/
def parseJsonTranscriptSpec : Option PyVal → Option PyVal
  | none => none
  | some (.vdict d) =>
    some (([transcriptKey, conversationKey, dialogueKey, textKey].findSome?
      (fun k => d.lookup k)).getD (.vstr (pyStr (.vdict d))))
  | some (.vlist l) => some (.vstr (List.intercalate (" ".toList) (l.map pyStr)))
  | some v => some (.vstr (pyStr v))

/-- Is the value a Python `str`?  (Used to state that extraction does not
coerce dict values to text.) -/
def isTextVal : PyVal → Bool
  | .vstr _ => true
  | _ => false

/-!
The inference pipeline (`analyze_transcript`, lines 29-115)
-/

def errorWord : List Char := "Error".toList

/-- Line 34. -/
def clientNotInitMsg : List Char := "Error: Groq client not initialized".toList

/-- Line 115, first component: `f"Error generating summary: {str(e)}"`. -/
def summaryErrMsg (e : List Char) : List Char :=
  "Error generating summary: ".toList ++ e

/-- Line 115, second component: `f"Error analyzing sentiment: {str(e)}"`. -/
def sentimentErrMsg (e : List Char) : List Char :=
  "Error analyzing sentiment: ".toList ++ e

/-- The external inference client as seen by one request: whether the
module-level `client` was constructed (lines 16-27), and the outcomes of
the two `chat.completions.create` calls.  `Except.error e` models a call
raising an exception with message `e`; `Except.ok t` a returned completion
text. -/
structure InfOracle where
  client : Option Unit
  summaryRes : Except (List Char) (List Char)
  sentimentRes : Except (List Char) (List Char)

/-- Lines 29-115 of app.py.  The `try`/`except` around the whole body
means the function always returns a pair of strings (modelled by totality
here) and never propagates an exception; a raised exception `e` from
either inference call yields the line-115 pair.  On success the summary is
the stripped summary completion and the sentiment is the stripped
sentiment completion run through the cleanup of lines 92-106. -/
def analyze_transcript (o : InfOracle) (transcript : List Char) :
    List Char × List Char :=
  match o.client with
  | none => (clientNotInitMsg, clientNotInitMsg)
  | some _ =>
    match o.summaryRes with
    | .error e => (summaryErrMsg e, sentimentErrMsg e)
    | .ok sraw =>
      match o.sentimentRes with
      | .error e => (summaryErrMsg e, sentimentErrMsg e)
      | .ok vraw => (pyStrip sraw, normalizeSentiment (pyStrip vraw))

/-!
The CSV result store (`save_to_csv`, lines 117-138)
-/

/-- The state of the file `call_analysis.csv`: absent, or present with its
rows (each row a list of fields, as written/read by the `csv` module). -/
inductive CsvFileState : Type
  | absent
  | file (rows : List (List (List Char)))
deriving DecidableEq

/-- The header row `Transcript,Summary,Sentiment` (line 127). -/
def csvHeader : List (List Char) :=
  ["Transcript".toList, "Summary".toList, "Sentiment".toList]

/-- Lines 121-123: replace every newline and carriage return by a space,
remove double quotes, then strip. -/
def cleanField (l : List Char) : List Char :=
  pyStrip (((l.map (fun c => if c = '\n' then ' ' else c)).map
    (fun c => if c = '\r' then ' ' else c)).filter (fun c => c ≠ quoteChar))

/-- Field sanitization exactly as the claim words it: newlines and
carriage returns become spaces and quote characters are removed — with no
trimming of surrounding whitespace. -/
def claimSanitize (l : List Char) : List Char :=
  ((l.map (fun c => if c = '\n' then ' ' else c)).map
    (fun c => if c = '\r' then ' ' else c)).filter (fun c => c ≠ quoteChar)

/-- Lines 117-138: `save_to_csv` overwrites the backing file (mode `'w'`)
with the header row plus the single cleaned data row, regardless of the
previous file state. -/
def save_to_csv (transcript summary sentiment : List Char) : CsvFileState :=
  .file [csvHeader,
    [cleanField transcript, cleanField summary, cleanField sentiment]]

/-- A sequence of successful saves applied in order to an initial state. -/
def runSaves (init : CsvFileState)
    (ts : List (List Char × List Char × List Char)) : CsvFileState :=
  ts.foldl (fun _ t => save_to_csv t.1 t.2.1 t.2.2) init

/-- Lines 199-203 and 227-231 (textually identical in the two handlers):
call `save_to_csv` only when neither the summary nor the sentiment starts
with `"Error"`, otherwise leave the file untouched.  The Bool records
whether `save_to_csv` was invoked. -/
def persistResult (transcript summary sentiment : List Char)
    (st : CsvFileState) : CsvFileState × Bool :=
  if ¬(beginsWith errorWord summary = true ∨ beginsWith errorWord sentiment = true)
  then (save_to_csv transcript summary sentiment, true)
  else (st, false)

/-!
Route handlers
-/

def invalidJsonMsg : List Char := "Invalid JSON format. Please check your file.".toList

def uploadValidJsonMsg : List Char := "Please upload a valid JSON file.".toList

def enterTranscriptMsg : List Char :=
  "Please enter a transcript or upload a JSON file to analyze.".toList

def noTranscriptMsg : List Char := "No transcript provided".toList

def emptyTranscriptMsg : List Char := "Empty transcript provided".toList

def noDataMsg : List Char :=
  "No analysis data found. Please analyze a transcript first.".toList

def inTypeErrMsg : List Char :=
  "TypeError: argument of type is not iterable".toList

def keyErrMsg : List Char := "KeyError: transcript".toList

def strIndexErrMsg : List Char := "TypeError: string indices must be integers".toList

def listIndexErrMsg : List Char := "TypeError: list indices must be integers".toList

def subscriptErrMsg : List Char := "TypeError: object is not subscriptable".toList

def stripAttrErrMsg : List Char :=
  "AttributeError: object has no strip method".toList

/-- The page handler's possible responses: the rendered result page, or a
flashed error message followed by a redirect to the index page. -/
inductive PageResp : Type
  | resultPage (transcript : PyVal) (summary sentiment : List Char)
  | flashRedirect (msg : List Char)

/-- Outcome of one `/analyze` request: response, resulting file state,
whether `save_to_csv` was invoked, and whether `analyze_transcript` was
invoked. -/
structure PageOut where
  resp : PageResp
  store : CsvFileState
  savedCsv : Bool
  ranAnalysis : Bool

/-- The text underlying the handler's transcript variable when it reaches
`analyze_transcript` and `save_to_csv`.  In CPython a truthy non-`str`
value extracted from JSON would raise `AttributeError` inside
`save_to_csv` at `transcript.replace`; no claim exercises that path, and
such a value is stringified here. -/
def pyValText : PyVal → List Char
  | .vstr s => s
  | v => pyStr v

/-- Lines 197-211: run the analysis on the transcript, persist only on
success, and render the result page (the result page is rendered even for
`Error`-prefixed outputs). -/
def proceedAnalysis (o : InfOracle) (v : PyVal) (st : CsvFileState) : PageOut :=
  let t := pyValText v
  let p := analyze_transcript o t
  ⟨.resultPage v p.1 p.2, (persistResult t p.1 p.2 st).1,
    (persistResult t p.1 p.2 st).2, true⟩

/-- One POST to `/analyze`: a file upload under the `json_file` field
(with its filename and the `json.loads` outcome of its decoded content) or
a plain form submission with the `transcript` text field.  (The `except`
path for bytes failing UTF-8 decoding is outside the modelled inputs; no
claim involves it.) -/
inductive PageReq : Type
  | upload (filename : List Char) (parsed : Option PyVal)
  | form (text : List Char)

/-- Lines 168-211, the `/analyze` page handler.  A Flask `FileStorage` is
falsy exactly when its filename is empty, so line 176's
`if file and file.filename.endswith('.json')` becomes the emptiness and
suffix tests below.  A falsy extraction result — parse failure or a falsy
extracted value — flashes the invalid-JSON message (lines 180-182); a form
transcript is stripped and rejected when empty (lines 191-195). -/
def analyze (o : InfOracle) (req : PageReq) (st : CsvFileState) : PageOut :=
  match req with
  | .upload filename parsed =>
    if !filename.isEmpty && endsWithText (".json".toList) filename then
      match parse_json_transcript parsed with
      | none => ⟨.flashRedirect invalidJsonMsg, st, false, false⟩
      | some v =>
        if pyTruthy v then proceedAnalysis o v st
        else ⟨.flashRedirect invalidJsonMsg, st, false, false⟩
    else ⟨.flashRedirect uploadValidJsonMsg, st, false, false⟩
  | .form text =>
    if (pyStrip text).isEmpty then ⟨.flashRedirect enterTranscriptMsg, st, false, false⟩
    else proceedAnalysis o (.vstr (pyStrip text)) st

/-- The API handler's possible outcomes: 200 JSON payload, 400 JSON with
an `error` field, or an unhandled Python exception escaping the handler. -/
inductive ApiResp : Type
  | ok (transcript summary sentiment : List Char)
  | badRequest (errMsg : List Char)
  | crash (msg : List Char)
deriving DecidableEq

/-- Does the response carry HTTP 400 with an `error` field? -/
def isBadRequest : ApiResp → Bool
  | .badRequest _ => true
  | _ => false

/-- Outcome of one `/api/analyze` request. -/
structure ApiOut where
  resp : ApiResp
  store : CsvFileState
  savedCsv : Bool
  ranAnalysis : Bool

/-- Python `'transcript' in data` (line 217): key membership for a dict,
element membership for a list, substring test for a str, and `TypeError`
for int/bool/None. -/
def pyIn (key : List Char) : PyVal → Except (List Char) Bool
  | .vdict d => .ok (d.lookup key).isSome
  | .vlist l => .ok (l.any (fun x => match x with | .vstr s => s == key | _ => false))
  | .vstr s => .ok (containsSub key s)
  | _ => .error inTypeErrMsg

/-- Python `data['transcript']` (line 220): association-list lookup for a
dict, `TypeError` when a str, list or other non-dict value is subscripted
with a string key. -/
def pyGetItem (v : PyVal) (key : List Char) : Except (List Char) PyVal :=
  match v with
  | .vdict d =>
    match d.lookup key with
    | some x => .ok x
    | none => .error keyErrMsg
  | .vstr _ => .error strIndexErrMsg
  | .vlist _ => .error listIndexErrMsg
  | _ => .error subscriptErrMsg

/-- Python `x.strip()` on the extracted transcript value (line 220):
defined for a str, `AttributeError` for every other value. -/
def pyStripMethod : PyVal → Except (List Char) (List Char)
  | .vstr s => .ok (pyStrip s)
  | _ => .error stripAttrErrMsg

/-- Lines 213-238, the `/api/analyze` handler.  `data` is the parsed JSON
body (`none` when `request.get_json()` yields no value).  Line 217's
`if not data or 'transcript' not in data` short-circuits: the membership
test runs only for truthy `data`, and raises for non-container values;
line 220's `data['transcript'].strip()` raises for non-str values. -/
def api_analyze (o : InfOracle) (data : Option PyVal) (st : CsvFileState) : ApiOut :=
  match data with
  | none => ⟨.badRequest noTranscriptMsg, st, false, false⟩
  | some v =>
    if !pyTruthy v then ⟨.badRequest noTranscriptMsg, st, false, false⟩
    else
      match pyIn transcriptKey v with
      | .error m => ⟨.crash m, st, false, false⟩
      | .ok mem =>
        if !mem then ⟨.badRequest noTranscriptMsg, st, false, false⟩
        else
          match pyGetItem v transcriptKey with
          | .error m => ⟨.crash m, st, false, false⟩
          | .ok tv =>
            match pyStripMethod tv with
            | .error m => ⟨.crash m, st, false, false⟩
            | .ok tr =>
              if tr.isEmpty then ⟨.badRequest emptyTranscriptMsg, st, false, false⟩
              else
                let p := analyze_transcript o tr
                ⟨.ok tr p.1 p.2, (persistResult tr p.1 p.2 st).1,
                  (persistResult tr p.1 p.2 st).2, true⟩

/-- Responses of `/download-csv`: a file attachment (with its download
name and the served rows) or a flashed message plus redirect. -/
inductive DlResp : Type
  | fileAttachment (downloadName : List Char) (rows : List (List (List Char)))
  | flashRedirect (msg : List Char)
deriving DecidableEq

/-- Is the response a served file attachment? -/
def isAttachment : DlResp → Bool
  | .fileAttachment _ _ => true
  | .flashRedirect _ => false

/-- Lines 254-277, the `/download-csv` handler: when the file is absent it
first writes a header-only file (lines 259-263), then flashes the no-data
message and redirects; when present it serves the file as an attachment
named `call_analysis.csv`.  (The `except` around `send_file` concerns I/O
failures outside the model.) -/
def download_csv (st : CsvFileState) : DlResp × CsvFileState :=
  match st with
  | .absent => (.flashRedirect noDataMsg, .file [csvHeader])
  | .file rows => (.fileAttachment ("call_analysis.csv".toList) rows, .file rows)

/-!
Auxiliary lemmas for the claims
-/

theorem beginsWith_append {pre l r : List Char} (h : beginsWith pre l = true) :
    beginsWith pre (l ++ r) = true := by
  induction pre generalizing l with
  | nil => rfl
  | cons c p ih =>
    cases l with
    | nil => simp [beginsWith] at h
    | cons d t =>
      rw [List.cons_append]
      simp only [beginsWith, Bool.and_eq_true] at h ⊢
      exact ⟨h.1, ih h.2⟩

theorem persistResult_snd_iff (t s v : List Char) (st : CsvFileState) :
    (persistResult t s v st).2 = true ↔
      (beginsWith errorWord s = false ∧ beginsWith errorWord v = false) := by
  unfold persistResult
  split
  · rename_i hcond
    constructor
    · exact fun _ => ⟨Bool.eq_false_iff.mpr (fun hh => hcond (Or.inl hh)),
        Bool.eq_false_iff.mpr (fun hh => hcond (Or.inr hh))⟩
    · exact fun _ => rfl
  · rename_i hcond
    have hcond' : beginsWith errorWord s = true ∨ beginsWith errorWord v = true :=
      not_not.mp hcond
    constructor
    · intro hff
      exact (Bool.false_ne_true hff).elim
    · intro hok
      rcases hcond' with hh | hh
      · rw [hok.1] at hh
        exact (Bool.false_ne_true hh).elim
      · rw [hok.2] at hh
        exact (Bool.false_ne_true hh).elim

theorem persistResult_fst_of_err (t s v : List Char) (st : CsvFileState)
    (hd : beginsWith errorWord s = true ∨ beginsWith errorWord v = true) :
    (persistResult t s v st).1 = st := by
  unfold persistResult
  rw [if_neg (not_not_intro hd)]

/-!
The claims
-/

/-- Claim C1: for every transcript, if the inference client is unavailable
(`client is None`) or an inference call raises an exception,
`analyze_transcript` returns a pair in which both the summary and the
sentiment begin with `"Error"`.  (That no exception propagates to the
caller is expressed by `analyze_transcript` being a total function of its
oracle: every raised-exception outcome maps to this return value.) -/
theorem claim1_error_sentinels (o : InfOracle) (t : List Char)
    (h : o.client = none ∨ o.summaryRes.isOk = false ∨ o.sentimentRes.isOk = false) :
    beginsWith errorWord (analyze_transcript o t).1 = true ∧
    beginsWith errorWord (analyze_transcript o t).2 = true := by
  have hsum : ∀ e, beginsWith errorWord (summaryErrMsg e) = true := fun e =>
    beginsWith_append (by decide)
  have hsent : ∀ e, beginsWith errorWord (sentimentErrMsg e) = true := fun e =>
    beginsWith_append (by decide)
  obtain ⟨c, sr, vr⟩ := o
  cases c with
  | none => exact ⟨rfl, rfl⟩
  | some u =>
    cases sr with
    | error e => exact ⟨hsum e, hsent e⟩
    | ok sraw =>
      cases vr with
      | error e => exact ⟨hsum e, hsent e⟩
      | ok vraw =>
        rcases h with h | h | h
        · exact absurd h (by simp)
        · exact absurd h (by simp [Except.isOk, Except.toBool])
        · exact absurd h (by simp [Except.isOk, Except.toBool])

/-- Witness for C1: a concrete oracle with no client and an empty
transcript. -/
theorem claim1_error_sentinels_witness :
    ((⟨none, .ok [], .ok []⟩ : InfOracle).client = none ∨
      (⟨none, .ok [], .ok []⟩ : InfOracle).summaryRes.isOk = false ∨
      (⟨none, .ok [], .ok []⟩ : InfOracle).sentimentRes.isOk = false) ∧
    (beginsWith errorWord (analyze_transcript ⟨none, .ok [], .ok []⟩ []).1 = true ∧
      beginsWith errorWord (analyze_transcript ⟨none, .ok [], .ok []⟩ []).2 = true) :=
  ⟨Or.inl rfl, claim1_error_sentinels ⟨none, .ok [], .ok []⟩ [] (Or.inl rfl)⟩

/-- Claim C3 counterexample: the claim omits that the code also strips
leading/trailing whitespace from each field (line 121's final `.strip()`),
so for the transcript `" hi"` the saved data row holds `"hi"` while the
claim's sanitization yields `" hi"`; the file written by `save_to_csv`
differs from header-plus-claim-sanitized-triple. -/
theorem claim3_counterexample :
    save_to_csv (" hi".toList) ("s".toList) ("v".toList) ≠
      CsvFileState.file [csvHeader,
        [claimSanitize (" hi".toList), claimSanitize ("s".toList),
          claimSanitize ("v".toList)]] := by
  decide

/-- Claim C3 (amended): `save_to_csv` overwrites the backing file with
exactly the header row plus exactly one data row holding the sanitized
triple, where sanitization replaces newlines and carriage returns by
spaces, removes quote characters, and additionally trims
leading/trailing whitespace (`cleanField = pyStrip ∘ claimSanitize`);
hence after any sequence of successful saves the store holds exactly the
most recent record and never more than one data row. -/
theorem claim3_overwrite_single_row (t s v : List Char) (init : CsvFileState)
    (prev : List (List Char × List Char × List Char)) :
    save_to_csv t s v =
      .file [csvHeader, [cleanField t, cleanField s, cleanField v]] ∧
    cleanField t = pyStrip (claimSanitize t) ∧
    runSaves init (prev ++ [(t, s, v)]) = save_to_csv t s v := by
  refine ⟨rfl, rfl, ?_⟩
  unfold runSaves
  rw [List.foldl_append]
  rfl

/-- Claim C4: sentiment normalization performs, in order: strip quote
characters and whitespace; if multi-line keep only the first line; if a
colon is present keep only the text after the last colon; split on periods
and keep the first segment; trim whitespace
(`normalizeSentimentSpec` states exactly these steps); in particular the
completion about a frustrated customer normalizes to
`"Frustrated and Negative"`. -/
theorem claim4_normalization (l : List Char) :
    normalizeSentiment l = normalizeSentimentSpec l ∧
    normalizeSentiment
        ("Sentiment: Frustrated and Negative. The customer was upset.".toList)
      = ("Frustrated and Negative".toList) := by
  constructor
  · unfold normalizeSentiment normalizeSentimentSpec
    rw [firstLineStep_eq_strip_takeWhile (pyStrip_idem (dropQuotes l)),
      lastColonStep_pyStrip, firstPeriodStep_pyStrip]
  · decide

/-- Claim C5: the sentiment normalization is idempotent — normalizing an
already-normalized result returns it unchanged, for every input string. -/
theorem claim5_normalize_idempotent (l : List Char) :
    normalizeSentiment (normalizeSentiment l) = normalizeSentiment l := by
  have h1 : dropQuotes (normalizeSentiment l) = normalizeSentiment l :=
    dropQuotes_eq_self (quote_not_mem_normalizeSentiment l)
      (apos_not_mem_normalizeSentiment l)
  show firstPeriodStep (lastColonStep (firstLineStep (pyStrip (dropQuotes
    (normalizeSentiment l))))) = normalizeSentiment l
  rw [h1, pyStrip_normalizeSentiment,
    firstLineStep_eq_self (newline_not_mem_normalizeSentiment l),
    lastColonStep_eq_self (colon_not_mem_normalizeSentiment l),
    firstPeriodStep_eq_self (period_not_mem_normalizeSentiment l)]

/-- Claim C2: in both the page handler and the API handler, `save_to_csv`
is invoked iff neither the summary nor the sentiment starts with
`"Error"`; when either does, the save is skipped and the stored file is
left unchanged.  Stated for every request that reaches the analysis step:
a form POST with transcript `t` and an API POST with body
`{"transcript": t}` (the persistence code, lines 199-203 and 227-231, is
identical in the two handlers and is reached only after the analysis). -/
theorem claim2_save_iff_no_error (o : InfOracle) (t : List Char)
    (st : CsvFileState) (h : pyStrip t ≠ []) :
    (((analyze o (.form t) st).savedCsv = true) ↔
      (beginsWith errorWord (analyze_transcript o (pyStrip t)).1 = false ∧
        beginsWith errorWord (analyze_transcript o (pyStrip t)).2 = false)) ∧
    ((beginsWith errorWord (analyze_transcript o (pyStrip t)).1 = true ∨
        beginsWith errorWord (analyze_transcript o (pyStrip t)).2 = true) →
      (analyze o (.form t) st).store = st) ∧
    (((api_analyze o (some (.vdict [(transcriptKey, .vstr t)])) st).savedCsv = true) ↔
      (beginsWith errorWord (analyze_transcript o (pyStrip t)).1 = false ∧
        beginsWith errorWord (analyze_transcript o (pyStrip t)).2 = false)) ∧
    ((beginsWith errorWord (analyze_transcript o (pyStrip t)).1 = true ∨
        beginsWith errorWord (analyze_transcript o (pyStrip t)).2 = true) →
      (api_analyze o (some (.vdict [(transcriptKey, .vstr t)])) st).store = st) := by
  have hne : ¬((pyStrip t).isEmpty = true) := by
    simpa using h
  have hpage : analyze o (.form t) st =
      ⟨.resultPage (.vstr (pyStrip t)) (analyze_transcript o (pyStrip t)).1
          (analyze_transcript o (pyStrip t)).2,
        (persistResult (pyStrip t) (analyze_transcript o (pyStrip t)).1
          (analyze_transcript o (pyStrip t)).2 st).1,
        (persistResult (pyStrip t) (analyze_transcript o (pyStrip t)).1
          (analyze_transcript o (pyStrip t)).2 st).2, true⟩ := by
    have h0 : analyze o (.form t) st =
        if (pyStrip t).isEmpty
        then ⟨.flashRedirect enterTranscriptMsg, st, false, false⟩
        else ⟨.resultPage (.vstr (pyStrip t)) (analyze_transcript o (pyStrip t)).1
            (analyze_transcript o (pyStrip t)).2,
          (persistResult (pyStrip t) (analyze_transcript o (pyStrip t)).1
            (analyze_transcript o (pyStrip t)).2 st).1,
          (persistResult (pyStrip t) (analyze_transcript o (pyStrip t)).1
            (analyze_transcript o (pyStrip t)).2 st).2, true⟩ := rfl
    rw [h0, if_neg hne]
  have hapi : api_analyze o (some (.vdict [(transcriptKey, .vstr t)])) st =
      ⟨.ok (pyStrip t) (analyze_transcript o (pyStrip t)).1
          (analyze_transcript o (pyStrip t)).2,
        (persistResult (pyStrip t) (analyze_transcript o (pyStrip t)).1
          (analyze_transcript o (pyStrip t)).2 st).1,
        (persistResult (pyStrip t) (analyze_transcript o (pyStrip t)).1
          (analyze_transcript o (pyStrip t)).2 st).2, true⟩ := by
    have h0 : api_analyze o (some (.vdict [(transcriptKey, .vstr t)])) st =
        if (pyStrip t).isEmpty
        then ⟨.badRequest emptyTranscriptMsg, st, false, false⟩
        else ⟨.ok (pyStrip t) (analyze_transcript o (pyStrip t)).1
            (analyze_transcript o (pyStrip t)).2,
          (persistResult (pyStrip t) (analyze_transcript o (pyStrip t)).1
            (analyze_transcript o (pyStrip t)).2 st).1,
          (persistResult (pyStrip t) (analyze_transcript o (pyStrip t)).1
            (analyze_transcript o (pyStrip t)).2 st).2, true⟩ := rfl
    rw [h0, if_neg hne]
  refine ⟨?_, ?_, ?_, ?_⟩
  · rw [hpage]
    exact persistResult_snd_iff _ _ _ _
  · intro hd
    rw [hpage]
    exact persistResult_fst_of_err _ _ _ _ hd
  · rw [hapi]
    exact persistResult_snd_iff _ _ _ _
  · intro hd
    rw [hapi]
    exact persistResult_fst_of_err _ _ _ _ hd

/-- Witness for C2: the concrete transcript `"hi"` with a client-less
oracle and an absent file. -/
theorem claim2_save_iff_no_error_witness :
    pyStrip ("hi".toList) ≠ [] ∧
    ((((analyze ⟨none, .ok [], .ok []⟩ (.form ("hi".toList)) .absent).savedCsv = true) ↔
      (beginsWith errorWord
          (analyze_transcript ⟨none, .ok [], .ok []⟩ (pyStrip ("hi".toList))).1 = false ∧
        beginsWith errorWord
          (analyze_transcript ⟨none, .ok [], .ok []⟩ (pyStrip ("hi".toList))).2 = false)) ∧
    ((beginsWith errorWord
          (analyze_transcript ⟨none, .ok [], .ok []⟩ (pyStrip ("hi".toList))).1 = true ∨
        beginsWith errorWord
          (analyze_transcript ⟨none, .ok [], .ok []⟩ (pyStrip ("hi".toList))).2 = true) →
      (analyze ⟨none, .ok [], .ok []⟩ (.form ("hi".toList)) .absent).store = .absent) ∧
    (((api_analyze ⟨none, .ok [], .ok []⟩
          (some (.vdict [(transcriptKey, .vstr ("hi".toList))])) .absent).savedCsv = true) ↔
      (beginsWith errorWord
          (analyze_transcript ⟨none, .ok [], .ok []⟩ (pyStrip ("hi".toList))).1 = false ∧
        beginsWith errorWord
          (analyze_transcript ⟨none, .ok [], .ok []⟩ (pyStrip ("hi".toList))).2 = false)) ∧
    ((beginsWith errorWord
          (analyze_transcript ⟨none, .ok [], .ok []⟩ (pyStrip ("hi".toList))).1 = true ∨
        beginsWith errorWord
          (analyze_transcript ⟨none, .ok [], .ok []⟩ (pyStrip ("hi".toList))).2 = true) →
      (api_analyze ⟨none, .ok [], .ok []⟩
          (some (.vdict [(transcriptKey, .vstr ("hi".toList))])) .absent).store = .absent)) :=
  ⟨by decide, claim2_save_iff_no_error ⟨none, .ok [], .ok []⟩ ("hi".toList) .absent (by decide)⟩

/-- Claim C6 counterexample: for the mapping `{"transcript": 42}` the
extraction returns the integer value itself, not a value coerced to text —
`parse_json_transcript` returns the four keys' values uncoerced. -/
theorem claim6_counterexample :
    parse_json_transcript (some (.vdict [(transcriptKey, .vint 42)])) =
      some (.vint 42) ∧
    isTextVal (.vint 42) = false :=
  ⟨rfl, rfl⟩

/-- Claim C6 (amended): for every JSON document parsing to a mapping, the
extraction checks `transcript`, `conversation`, `dialogue`, `text` in that
priority order and returns the first matching key's value unchanged (not
coerced to text); when none of the four is present it returns the
stringification of the whole mapping; for an array it returns the
elements stringified and joined with single spaces — i.e. the code agrees
with `parseJsonTranscriptSpec` everywhere. -/
theorem claim6_extraction_priority (j : Option PyVal) :
    parse_json_transcript j = parseJsonTranscriptSpec j := by
  match j with
  | none => rfl
  | some (.vstr s) => rfl
  | some (.vint n) => rfl
  | some (.vbool b) => rfl
  | some .vnone => rfl
  | some (.vlist l) => rfl
  | some (.vdict d) =>
    simp only [parse_json_transcript, parseJsonTranscriptSpec, List.findSome?]
    cases d.lookup transcriptKey <;> cases d.lookup conversationKey <;>
      cases d.lookup dialogueKey <;> cases d.lookup textKey <;> rfl

/-- Claim C8: downloading when `call_analysis.csv` is absent creates a
header-only file as a side effect and responds with the no-data flash and
redirect, not a file attachment; when the file exists it is served as an
attachment named `call_analysis.csv` and the state is unchanged. -/
theorem claim8_download_csv (rows : List (List (List Char))) :
    (download_csv .absent = (.flashRedirect noDataMsg, .file [csvHeader]) ∧
      isAttachment (download_csv .absent).1 = false) ∧
    download_csv (.file rows) =
      (.fileAttachment ("call_analysis.csv".toList) rows, .file rows) :=
  ⟨⟨rfl, rfl⟩, rfl⟩

/-- Claim C7 counterexample: the JSON body `42` has no transcript key, yet
the handler does not return 400 — line 217's `'transcript' not in data`
raises `TypeError` for an integer body, which escapes the handler. -/
theorem claim7_counterexample :
    api_analyze ⟨none, .ok [], .ok []⟩ (some (.vint 42)) .absent =
      ⟨.crash inTypeErrMsg, .absent, false, false⟩ ∧
    isBadRequest
      (api_analyze ⟨none, .ok [], .ok []⟩ (some (.vint 42)) .absent).resp = false :=
  ⟨rfl, rfl⟩

/-- Claim C7 (amended): for every POST to `/api/analyze` whose JSON body
parses to a mapping without the `transcript` key, and for every mapping
body whose `transcript` value is a string that is empty after trimming,
the handler returns HTTP 400 with a JSON `error` field, and no inference
call and no save is made.  (The unrestricted claim fails for non-mapping
bodies such as `42`, where the membership test raises.) -/
theorem claim7_api_bad_request (o : InfOracle) (st : CsvFileState)
    (d : List (List Char × PyVal)) (s : List Char) :
    (d.lookup transcriptKey = none →
      api_analyze o (some (.vdict d)) st =
        ⟨.badRequest noTranscriptMsg, st, false, false⟩) ∧
    (d.lookup transcriptKey = some (.vstr s) → pyStrip s = [] →
      api_analyze o (some (.vdict d)) st =
        ⟨.badRequest emptyTranscriptMsg, st, false, false⟩) := by
  constructor
  · intro hnone
    cases d with
    | nil => rfl
    | cons kv tl =>
      simp [api_analyze, pyTruthy, pyIn, hnone]
  · intro hsome hempty
    cases d with
    | nil => simp at hsome
    | cons kv tl =>
      simp [api_analyze, pyTruthy, pyIn, pyGetItem, pyStripMethod, hsome, hempty]

/-- Witness for C7 (amended): the empty mapping `{}` and the mapping
`{"transcript": "  "}` at a concrete oracle and store. -/
theorem claim7_api_bad_request_witness :
    api_analyze ⟨none, .ok [], .ok []⟩ (some (.vdict [])) .absent =
      ⟨.badRequest noTranscriptMsg, .absent, false, false⟩ ∧
    api_analyze ⟨none, .ok [], .ok []⟩
        (some (.vdict [(transcriptKey, .vstr ("  ".toList))])) .absent =
      ⟨.badRequest emptyTranscriptMsg, .absent, false, false⟩ :=
  ⟨(claim7_api_bad_request ⟨none, .ok [], .ok []⟩ .absent [] []).1 rfl,
    (claim7_api_bad_request ⟨none, .ok [], .ok []⟩ .absent
      [(transcriptKey, .vstr ("  ".toList))] ("  ".toList)).2 rfl (by decide)⟩

/-- Claim C9: an uploaded `.json` file parsing to a mapping whose
highest-priority matching key holds a falsy value is handled exactly like
a JSON parse failure: the page handler flashes the invalid-JSON message
and redirects (no empty-input distinction), because
`parse_json_transcript` signals failure with `None` and line 180 tests the
returned value for falsiness. -/
theorem claim9_falsy_extraction_like_parse_failure (o : InfOracle)
    (st : CsvFileState) (filename : List Char)
    (d : List (List Char × PyVal)) (v : PyVal)
    (hfn : filename.isEmpty = false)
    (hjson : endsWithText (".json".toList) filename = true)
    (hext : parse_json_transcript (some (.vdict d)) = some v)
    (hfalsy : pyTruthy v = false) :
    analyze o (.upload filename (some (.vdict d))) st =
      ⟨.flashRedirect invalidJsonMsg, st, false, false⟩ ∧
    analyze o (.upload filename (some (.vdict d))) st =
      analyze o (.upload filename none) st := by
  have hcond : (!filename.isEmpty && endsWithText (".json".toList) filename) = true := by
    rw [hfn, hjson]
    rfl
  have h1 : analyze o (.upload filename (some (.vdict d))) st =
      ⟨.flashRedirect invalidJsonMsg, st, false, false⟩ := by
    simp only [analyze]
    rw [if_pos hcond, hext]
    simp [hfalsy]
  have h2 : analyze o (.upload filename none) st =
      ⟨.flashRedirect invalidJsonMsg, st, false, false⟩ := by
    simp only [analyze]
    rw [if_pos hcond]
    rfl
  exact ⟨h1, h1.trans h2.symm⟩

/-- Witness for C9: the upload `a.json` containing `{"transcript": ""}`. -/
theorem claim9_falsy_extraction_witness :
    ("a.json".toList).isEmpty = false ∧
    endsWithText (".json".toList) ("a.json".toList) = true ∧
    parse_json_transcript (some (.vdict [(transcriptKey, .vstr [])])) =
      some (.vstr []) ∧
    pyTruthy (.vstr []) = false ∧
    (analyze ⟨none, .ok [], .ok []⟩
        (.upload ("a.json".toList) (some (.vdict [(transcriptKey, .vstr [])]))) .absent =
      ⟨.flashRedirect invalidJsonMsg, .absent, false, false⟩ ∧
    analyze ⟨none, .ok [], .ok []⟩
        (.upload ("a.json".toList) (some (.vdict [(transcriptKey, .vstr [])]))) .absent =
      analyze ⟨none, .ok [], .ok []⟩ (.upload ("a.json".toList) none) .absent) :=
  ⟨rfl, by decide, rfl, rfl,
    claim9_falsy_extraction_like_parse_failure ⟨none, .ok [], .ok []⟩ .absent
      ("a.json".toList) [(transcriptKey, .vstr [])] (.vstr [])
      rfl (by decide) rfl rfl⟩

/-- Claim C10: a POST to `/api/analyze` whose body binds `transcript` to a
non-string value — here `{"transcript": 42}` — makes the handler raise an
unhandled `AttributeError` at `data['transcript'].strip()` (line 220)
before any 400 response is produced; no inference call and no save is
made. -/
theorem claim10_nonstring_transcript_crash :
    api_analyze ⟨none, .ok [], .ok []⟩
        (some (.vdict [(transcriptKey, .vint 42)])) .absent =
      ⟨.crash stripAttrErrMsg, .absent, false, false⟩ ∧
    isBadRequest (api_analyze ⟨none, .ok [], .ok []⟩
        (some (.vdict [(transcriptKey, .vint 42)])) .absent).resp = false :=
  ⟨rfl, rfl⟩

end TranscriptApp
